import Mathlib

/-!
Verification of the predictive analytics engine of TallyInsightsPro
(`src/analytics.py`).

The engine operates on pandas DataFrames of transaction records.  We embed a
DataFrame as a `Frame`: a list of `TransactionRecord` rows together with the
set of columns present.  Dates are embedded as integer day numbers
(day 0 = 1970-01-01, matching the pandas timestamp epoch); calendar fields
(month, quarter, weekday) are recovered from the day number by the standard
civil-calendar algorithm, mirroring pandas `dt.month` / `dt.quarter` /
`dt.dayofweek` (Monday = 0).  Monetary amounts are embedded as rationals.

The fitted scikit-learn models are external library state: `sales_forecasting`
is parameterised by the fitted regressor's prediction function `predict`, and
`customer_segmentation` by the k-means label assignment `cluster`, so every
theorem below holds for the actual fitted model as a special case.

Python dict results carrying an `error` key are embedded as
`Except AnalyticsError`; each distinct error message string in the source is a
distinct constructor, with `AnalyticsError.message` giving the exact string.

In-place DataFrame mutation (`sales_data['month'] = ...` adds a column to the
caller's frame) is embedded by returning the updated `Frame` alongside the
result for the two operations whose source mutates the caller-visible column
set (`product_trend_analysis`, `seasonal_pattern_analysis`).
-/

namespace TallyInsights

/-- A transaction record: one row of the sales DataFrame.
Fields follow `src/analytics.py` column names: `date`, `amount`,
`party_name`, `voucher_number`, `stock_item`. -/
structure TransactionRecord where
  date : Int
  amount : Rat
  party_name : String
  voucher_number : String
  stock_item : String
deriving DecidableEq

/-- A sales DataFrame: its rows, whether the optional `stock_item` column is
present, and any extra (derived) columns added by in-place assignment. -/
structure Frame where
  rows : List TransactionRecord
  stockCol : Bool
  extra : List String
deriving DecidableEq

/-- The columns of a frame, in order: the base transaction columns, the
optional `stock_item` column, then derived columns added in place. -/
def Frame.cols (f : Frame) : List String :=
  ["date", "amount", "party_name", "voucher_number"]
    ++ (if f.stockCol then ["stock_item"] else []) ++ f.extra

/-- Column assignment `df[c] = ...`: if the column is new it is appended to
the frame's column set (we track presence; derived values are recomputable
from `date`). -/
def Frame.assignCol (f : Frame) (c : String) : Frame :=
  if c ∈ f.cols then f else { f with extra := f.extra ++ [c] }

/-- Python `df[c1] = ...; df[c2] = ...; ...` in sequence. -/
def Frame.assignCols (f : Frame) : List String → Frame
  | [] => f
  | c :: cs => (f.assignCol c).assignCols cs

/-- pandas `dt.dayofweek` (Monday = 0) of a day number
(day 0 = 1970-01-01, a Thursday). -/
def dayOfWeek (d : Int) : Int := (d + 3) % 7

/-- pandas `dt.month` of a day number: the standard days-to-civil-date
algorithm. -/
def civilMonth (d : Int) : Int :=
  let z := d + 719468
  let era := (if 0 ≤ z then z else z - 146096) / 146097
  let doe := z - era * 146097
  let yoe := (doe - doe / 1460 + doe / 36524 - doe / 146096) / 365
  let doy := doe - (365 * yoe + yoe / 4 - yoe / 100)
  let mp := (5 * doy + 2) / 153
  mp + (if mp < 10 then 3 else -9)

/-- pandas `dt.quarter` of a day number. -/
def civilQuarter (d : Int) : Int := (civilMonth d + 2) / 3

/-- Python `day_of_week in [5, 6]` (Saturday/Sunday). -/
def isWeekend (d : Int) : Bool := dayOfWeek d == 5 || dayOfWeek d == 6

/-- Python `sales_data['amount'].sum()` over a list of rows. -/
def sumAmounts (rows : List TransactionRecord) : Rat :=
  (rows.map (·.amount)).sum

/-- Python `groupby(key)['amount'].sum()`: one `(key value, total)` pair per distinct
key value occurring in the rows. -/
def groupSum {κ : Type} [DecidableEq κ] (key : TransactionRecord → κ)
    (rows : List TransactionRecord) : List (κ × Rat) :=
  ((rows.map key).dedup).map fun k =>
    (k, sumAmounts (rows.filter fun r => decide (key r = k)))

/-- Insert into an ascending list, keeping it ascending. -/
def insortInt (x : Int) : List Int → List Int
  | [] => [x]
  | y :: ys => if x ≤ y then x :: y :: ys else y :: insortInt x ys

/-- Sort ascending (`sort_values`). -/
def sortInts : List Int → List Int
  | [] => []
  | x :: xs => insortInt x (sortInts xs)

/-- Python `groupby(date)['amount'].sum().reset_index().sort_values('date')`:
the daily aggregate series, one `(date, total)` per distinct calendar date,
ascending by date. -/
def dailyAgg (rows : List TransactionRecord) : List (Int × Rat) :=
  (sortInts ((rows.map (·.date)).dedup)).map fun d =>
    (d, sumAmounts (rows.filter fun r => decide (r.date = d)))

/-- The number of distinct calendar dates in the rows
(`len(daily_sales)`). -/
def distinctDates (rows : List TransactionRecord) : Nat :=
  (dailyAgg rows).length

/-- Maximum of a list of integers, 0 on the empty list. -/
def listMaxInt : List Int → Int
  | [] => 0
  | x :: xs => xs.foldl max x

/-- Minimum of a list of integers, 0 on the empty list. -/
def listMinInt : List Int → Int
  | [] => 0
  | x :: xs => xs.foldl min x

/-- Python `daily_sales['date'].max()`: the latest date of the daily aggregate
series. -/
def lastDate (rows : List TransactionRecord) : Int :=
  listMaxInt ((dailyAgg rows).map Prod.fst)

/-- Python `daily_sales['date'].min()`: the earliest date of the daily aggregate
series. -/
def minDate (rows : List TransactionRecord) : Int :=
  listMinInt ((dailyAgg rows).map Prod.fst)

/-- The feature vector `(day_num, day_of_week, month, is_weekend)` built for a
date, given the earliest historical date. -/
def featVec (minD d : Int) : Int × Int × Int × Int :=
  (d - minD, dayOfWeek d, civilMonth d, if isWeekend d then 1 else 0)

/-- The distinct `error` message values returned by the engine, one
constructor per distinct message string in `src/analytics.py`. -/
inductive AnalyticsError where
  | insufficientData
  | insufficientHistory
  | insufficientCustomerData
  | insufficientCustomers
  | noSalesData
  | stockItemUnavailable
deriving DecidableEq

/-- The exact message string of each error, as in the source. -/
def AnalyticsError.message : AnalyticsError → String
  | .insufficientData => "Insufficient data for forecasting"
  | .insufficientHistory => "Need at least 7 days of data for forecasting"
  | .insufficientCustomerData => "Insufficient customer data"
  | .insufficientCustomers => "Need at least 3 customers for segmentation"
  | .noSalesData => "No sales data available"
  | .stockItemUnavailable => "Stock item information not available in sales data"

/-- Arithmetic mean, 0 on the empty list (not reached on guarded paths). -/
def meanQ (xs : List Rat) : Rat :=
  if xs.length = 0 then 0 else xs.sum / (xs.length : Rat)

/-- Population variance, as in `np.std` (ddof = 0). -/
def popVar (xs : List Rat) : Rat :=
  meanQ (xs.map fun x => (x - meanQ xs) ^ 2)

/-- Python `np.std`: the population standard deviation. -/
noncomputable def popStd (xs : List Rat) : Real := Real.sqrt (popVar xs)

/-- Python `model.score(X, y)`: the in-sample coefficient of determination
`1 - ss_res / ss_tot`. -/
def r2score (ys preds : List Rat) : Rat :=
  let ybar := meanQ ys
  let ssRes := (List.zipWith (fun y p => (y - p) ^ 2) ys preds).sum
  let ssTot := (ys.map fun y => (y - ybar) ^ 2).sum
  1 - ssRes / ssTot

/-- The result dict of a successful `sales_forecasting` call. -/
structure ForecastResult where
  forecast_dates : List Int
  forecast_values : List Rat
  confidence_upper : List Real
  confidence_lower : List Real
  historical_data : List (Int × Rat)
  model_accuracy : Rat

/-- Python `residuals = y - model.predict(X)`: actual minus predicted over the
historical daily series, in series order. -/
def trainResiduals (predict : Int × Int × Int × Int → Rat)
    (rows : List TransactionRecord) : List Rat :=
  (dailyAgg rows).map fun p => p.2 - predict (featVec (minDate rows) p.1)

/-- Python `np.std(residuals)`: the standard deviation of the training residuals. -/
noncomputable def stdResidual (predict : Int × Int × Int × Int → Rat)
    (rows : List TransactionRecord) : Real :=
  popStd (trainResiduals predict rows)

/-- Python `forecast_dates = [last_date + timedelta(days=i) for i in
range(1, forecast_days + 1)]`. -/
def forecastDates (rows : List TransactionRecord) (forecast_days : Nat) :
    List Int :=
  (List.range' 1 forecast_days).map fun (i : Nat) => lastDate rows + (i : Int)

/-- Python `forecast_values = model.predict(forecast_features)`: the point estimate
for each forecast date's feature vector. -/
def forecastValues (predict : Int × Int × Int × Int → Rat)
    (rows : List TransactionRecord) (forecast_days : Nat) : List Rat :=
  (forecastDates rows forecast_days).map fun d =>
    predict (featVec (minDate rows) d)

/-- The result dict built on the success path of `sales_forecasting`. -/
noncomputable def forecastPayload (predict : Int × Int × Int × Int → Rat)
    (rows : List TransactionRecord) (forecast_days : Nat) : ForecastResult :=
  { forecast_dates := forecastDates rows forecast_days
    forecast_values := forecastValues predict rows forecast_days
    confidence_upper := (forecastValues predict rows forecast_days).map
      fun (v : Rat) => (v : Real) + 1.96 * stdResidual predict rows
    confidence_lower := (forecastValues predict rows forecast_days).map
      fun (v : Rat) => (v : Real) - 1.96 * stdResidual predict rows
    historical_data := dailyAgg rows
    model_accuracy := r2score ((dailyAgg rows).map Prod.snd)
      ((dailyAgg rows).map fun p => predict (featVec (minDate rows) p.1)) }

/-- Python `AdvancedAnalytics.sales_forecasting`, parameterised by the fitted
regressor's prediction function.  Guards: empty input or missing `date`
column; then fewer than 7 distinct dates.  On success: forecast dates are the
`forecast_days` consecutive days after the last historical date, point
estimates come from `predict`, and the confidence band is
`point ± 1.96 * std(residuals)`. -/
noncomputable def sales_forecasting (predict : Int × Int × Int × Int → Rat)
    (f : Frame) (forecast_days : Nat) : Except AnalyticsError ForecastResult :=
  if f.rows = [] ∨ "date" ∉ f.cols then .error .insufficientData
  else if (dailyAgg f.rows).length < 7 then .error .insufficientHistory
  else .ok (forecastPayload predict f.rows forecast_days)

/-- Python `sales_data['date'].max()` over the raw rows. -/
def maxDateRaw (rows : List TransactionRecord) : Int :=
  listMaxInt (rows.map (·.date))

/-- The distinct counterparties of the batch (`groupby('party_name')` keys;
we keep first-occurrence order, a permutation of pandas' sorted key order —
no claim below depends on row order). -/
def partiesOf (rows : List TransactionRecord) : List String :=
  (rows.map (·.party_name)).dedup

/-- Python `len(rfm)`: the number of distinct counterparties. -/
def distinctParties (rows : List TransactionRecord) : Nat :=
  (partiesOf rows).length

/-- One row of the RFM frame: `(customer, recency, frequency, monetary)`. -/
def rfmBase (rows : List TransactionRecord) :
    List (String × Int × Nat × Rat) :=
  (partiesOf rows).map fun p =>
    let prows := rows.filter fun r => decide (r.party_name = p)
    (p, maxDateRaw rows - listMaxInt (prows.map (·.date)),
      ((prows.map (·.voucher_number)).dedup).length, sumAmounts prows)

/-- Python `rfm_normalized['recency'] = 1 / (recency + 1)`. -/
def invRecency (r : Rat) : Rat := 1 / (r + 1)

/-- Python `StandardScaler` on one column: subtract the mean, divide by the
population standard deviation (a zero scale is replaced by 1, as sklearn
does). -/
noncomputable def standardizeCol (xs : List Rat) : List Real :=
  let mu : Real := (meanQ xs : Rat)
  let sd := popStd xs
  xs.map fun (x : Rat) => ((x : Real) - mu) / (if sd = 0 then 1 else sd)

/-- Python `scaler.fit_transform` of the RFM frame with inverted recency:
standardized `(recency, frequency, monetary)` rows. -/
noncomputable def rfmNormalized (rows : List TransactionRecord) :
    List (Real × Real × Real) :=
  let base := rfmBase rows
  List.zipWith Prod.mk
    (standardizeCol (base.map fun b => invRecency (b.2.1 : Rat)))
    (List.zipWith Prod.mk
      (standardizeCol (base.map fun b => ((b.2.2.1 : Nat) : Rat)))
      (standardizeCol (base.map fun b => b.2.2.2)))

/-- Python `segment_labels.get(x, f'Segment {x}')`: the fixed positional label map
with its fallback. -/
def segment_labels (x : Nat) : String :=
  match x with
  | 0 => "Champions"
  | 1 => "Loyal Customers"
  | 2 => "Potential Loyalists"
  | 3 => "At Risk"
  | _ => "Segment " ++ toString x

/-- An RFM record of the segmentation result. -/
structure RfmRecord where
  customer : String
  recency : Int
  frequency : Nat
  monetary : Rat
  segment : Nat
  segment_name : String

/-- The result of a successful `customer_segmentation` call (the `rfm_data`
frame; `segment_stats` and `cluster_centers` are diagnostics derived from
it). -/
structure SegmentationResult where
  rfm : List RfmRecord
  n_clusters : Nat

/-- The result dict built on the success path of `customer_segmentation`:
zip the RFM rows with the k-means labels (`k = min(4, len(rfm))`) and attach
the positional segment names. -/
noncomputable def segmentationPayload
    (cluster : List (Real × Real × Real) → Nat → List Nat)
    (rows : List TransactionRecord) : SegmentationResult :=
  { rfm := (List.zip (rfmBase rows)
        (cluster (rfmNormalized rows) (min 4 (rfmBase rows).length))).map
          fun bl =>
            { customer := bl.1.1, recency := bl.1.2.1
              frequency := bl.1.2.2.1, monetary := bl.1.2.2.2
              segment := bl.2, segment_name := segment_labels bl.2 }
    n_clusters := min 4 (rfmBase rows).length }

/-- Python `AdvancedAnalytics.customer_segmentation`, parameterised by the k-means
label assignment `cluster` (input: standardized RFM rows and the cluster
count; output: one label per row).  Guards: empty input or missing
`party_name` column; then fewer than 3 distinct counterparties. -/
noncomputable def customer_segmentation
    (cluster : List (Real × Real × Real) → Nat → List Nat)
    (f : Frame) : Except AnalyticsError SegmentationResult :=
  if f.rows = [] ∨ "party_name" ∉ f.cols then .error .insufficientCustomerData
  else if (rfmBase f.rows).length < 3 then .error .insufficientCustomers
  else .ok (segmentationPayload cluster f.rows)

/-- Insert into an ascending list of rationals, keeping it ascending. -/
def insortRat (x : Rat) : List Rat → List Rat
  | [] => [x]
  | y :: ys => if x ≤ y then x :: y :: ys else y :: insortRat x ys

/-- Sort rationals ascending. -/
def sortRats : List Rat → List Rat
  | [] => []
  | x :: xs => insortRat x (sortRats xs)

/-- Floor of a non-negative rational, as an executable `num / den`. -/
def floorQ (q : Rat) : Int := q.num / (q.den : Int)

/-- pandas `Series.quantile(0.7)` with the default linear interpolation:
at position `p = 0.7 * (n - 1)` of the ascending values, interpolate between
the neighbouring order statistics. -/
def quantile70 (xs : List Rat) : Rat :=
  let s := sortRats xs
  let n := s.length
  if n = 0 then 0
  else
    let p : Rat := (7 * ((n : Rat) - 1)) / 10
    let i : Nat := (floorQ p).toNat
    let lo := s.getD i 0
    let hi := s.getD (min (i + 1) (n - 1)) 0
    lo + (p - (i : Rat)) * (hi - lo)

/-- Python `categorize_product`: the quantile-threshold classification rule. -/
def categorize_product (vth fth : Rat) (velocity frequency : Rat) : String :=
  if velocity ≥ vth ∧ frequency ≥ fth then "Fast Mover"
  else if velocity ≥ vth then "High Value"
  else if frequency ≥ fth then "Frequent Seller"
  else "Slow Mover"

/-- One row of the `product_sales` frame. -/
structure ProductRecord where
  product : String
  total_sales : Rat
  transaction_count : Nat
  avg_sale : Rat
  first_sale : Int
  last_sale : Int
  sales_velocity : Rat
  sales_frequency : Nat
  category : String
deriving DecidableEq

/-- The distinct products of the batch (`groupby('stock_item')` keys,
first-occurrence order). -/
def productsOf (rows : List TransactionRecord) : List String :=
  (rows.map (·.stock_item)).dedup

/-- The per-product aggregate row, before categorisation. -/
def productBase (rows : List TransactionRecord) (it : String) : ProductRecord :=
  let prows := rows.filter fun r => decide (r.stock_item = it)
  let total := sumAmounts prows
  let cnt := prows.length
  { product := it, total_sales := total, transaction_count := cnt
    avg_sale := total / (cnt : Rat)
    first_sale := listMinInt (prows.map (·.date))
    last_sale := listMaxInt (prows.map (·.date))
    sales_velocity := total / (cnt : Rat), sales_frequency := cnt
    category := "" }

/-- Python `quantile(0.7)` of `sales_velocity` over the current batch. -/
def velocityThreshold (rows : List TransactionRecord) : Rat :=
  quantile70 ((productsOf rows).map fun it => (productBase rows it).sales_velocity)

/-- Python `quantile(0.7)` of `sales_frequency` over the current batch. -/
def frequencyThreshold (rows : List TransactionRecord) : Rat :=
  quantile70 ((productsOf rows).map fun it =>
    ((productBase rows it).sales_frequency : Rat))

/-- The result of a successful `product_trend_analysis` call. -/
structure TrendResult where
  product_analysis : List ProductRecord
  monthly_trends : List ((String × Int) × Rat)
  fast_movers : List ProductRecord
  slow_movers : List ProductRecord
deriving DecidableEq

/-- The `product_sales` frame after `apply(categorize_product, axis=1)`:
per-product aggregates with their movement category attached. -/
def trendProducts (rows : List TransactionRecord) : List ProductRecord :=
  (productsOf rows).map fun it =>
    let p := productBase rows it
    let cat := categorize_product (velocityThreshold rows)
      (frequencyThreshold rows) p.sales_velocity (p.sales_frequency : Rat)
    { p with category := cat }

/-- The result dict built on the success path of `product_trend_analysis`. -/
def trendPayload (rows : List TransactionRecord) : TrendResult :=
  { product_analysis := trendProducts rows
    monthly_trends :=
      groupSum (fun r => ((r.stock_item, civilMonth r.date) : String × Int)) rows
    fast_movers := (trendProducts rows).filter fun p =>
      decide (p.category = "Fast Mover")
    slow_movers := (trendProducts rows).filter fun p =>
      decide (p.category = "Slow Mover") }

/-- Python `AdvancedAnalytics.product_trend_analysis`.  Guards: empty input; then a
missing `stock_item` column yields the `error`-keyed dict with the dedicated
"not available" message.  On success the caller's frame gains the derived
`month` column (in-place assignment). -/
def product_trend_analysis (f : Frame) :
    (Except AnalyticsError TrendResult) × Frame :=
  if f.rows = [] then (.error .noSalesData, f)
  else if "stock_item" ∉ f.cols then (.error .stockItemUnavailable, f)
  else (.ok (trendPayload f.rows), f.assignCol "month")

/-- Python `datetime(2023, x, 1).strftime('%B')` for months 1..12. -/
def monthName (m : Int) : String :=
  match m with
  | 1 => "January" | 2 => "February" | 3 => "March" | 4 => "April"
  | 5 => "May" | 6 => "June" | 7 => "July" | 8 => "August"
  | 9 => "September" | 10 => "October" | 11 => "November" | 12 => "December"
  | _ => ""

/-- Python `day_names[x]` for weekdays 0..6 (Monday = 0). -/
def dayName (d : Int) : String :=
  match d with
  | 0 => "Monday" | 1 => "Tuesday" | 2 => "Wednesday" | 3 => "Thursday"
  | 4 => "Friday" | 5 => "Saturday" | 6 => "Sunday"
  | _ => ""

/-- Python `.loc[frame['amount'].idxmax()]`: the first bucket attaining the maximal
total. -/
def argmaxSnd : List (Int × Rat) → Int × Rat
  | [] => (0, 0)
  | x :: xs => xs.foldl (fun b a => if b.2 < a.2 then a else b) x

/-- The result of a successful `seasonal_pattern_analysis` call. -/
structure SeasonalResult where
  monthly_patterns : List (Int × Rat)
  weekly_patterns : List (Int × Rat)
  quarterly_patterns : List (Int × Rat)
  peak_month : String
  peak_day : String
deriving DecidableEq

/-- The result dict built on the success path of
`seasonal_pattern_analysis`: month/weekday/quarter bucket totals plus the
peak buckets. -/
def seasonalPayload (rows : List TransactionRecord) : SeasonalResult :=
  { monthly_patterns := groupSum (fun r => civilMonth r.date) rows
    weekly_patterns := groupSum (fun r => dayOfWeek r.date) rows
    quarterly_patterns := groupSum (fun r => civilQuarter r.date) rows
    peak_month :=
      monthName (argmaxSnd (groupSum (fun r => civilMonth r.date) rows)).1
    peak_day :=
      dayName (argmaxSnd (groupSum (fun r => dayOfWeek r.date) rows)).1 }

/-- Python `AdvancedAnalytics.seasonal_pattern_analysis`.  Buckets every record's
amount by month, weekday and quarter.  The caller's frame gains the four
derived calendar columns (in-place assignments at the top of the `try`
block). -/
def seasonal_pattern_analysis (f : Frame) :
    (Except AnalyticsError SeasonalResult) × Frame :=
  if f.rows = [] then (.error .noSalesData, f)
  else (.ok (seasonalPayload f.rows),
    f.assignCols ["month", "quarter", "day_of_week", "week_of_year"])

/-- One row of the inventory snapshot. -/
structure InventoryRecord where
  closing_value : Rat
  closing_balance : Rat
  reorder_level : Rat
deriving DecidableEq

/-- One row of the outstanding-balances snapshot. -/
structure OutstandingRecord where
  closing_balance : Rat
deriving DecidableEq

/-- Python `calculate_kpis`: the KPI map as an association list, keys added in
source order, each block guarded by its snapshot being non-empty. -/
def calculate_kpis (sales : List TransactionRecord)
    (inventory : List InventoryRecord)
    (outstanding : List OutstandingRecord) : List (String × Rat) :=
  (if sales = [] then []
   else [("total_sales", sumAmounts sales),
         ("avg_transaction_value", meanQ (sales.map (·.amount))),
         ("sales_count", (sales.length : Rat))])
  ++ (if inventory = [] then []
      else [("total_inventory_value", (inventory.map (·.closing_value)).sum),
            ("inventory_items", (inventory.length : Rat)),
            ("low_stock_items",
              ((inventory.filter fun r =>
                decide (r.closing_balance ≤ r.reorder_level)).length : Rat))])
  ++ (if outstanding = [] then []
      else [("total_receivables", (outstanding.map (·.closing_balance)).sum),
            ("overdue_customers",
              ((outstanding.filter fun r =>
                decide (0 < r.closing_balance)).length : Rat))])

/-- A concrete transaction row used by witnesses. -/
def wRecord (i : Nat) : TransactionRecord :=
  { date := i, amount := 100 + i, party_name := "P" ++ toString i
    voucher_number := "V" ++ toString i, stock_item := "S" ++ toString i }

/-- Seven rows on seven consecutive dates. -/
def wRows7 : List TransactionRecord := (List.range 7).map wRecord

/-- A concrete frame with seven distinct dates. -/
def wFrame7 : Frame := { rows := wRows7, stockCol := true, extra := [] }

/-- The empty sales frame. -/
def emptyFrame : Frame := { rows := [], stockCol := true, extra := [] }

/-- Three rows on three consecutive dates. -/
def wRows3 : List TransactionRecord := (List.range 3).map wRecord

/-- A concrete non-empty frame with three distinct dates (and three distinct
counterparties). -/
def wFrame3 : Frame := { rows := wRows3, stockCol := true, extra := [] }

/-- Two rows with two distinct counterparties. -/
def wRows2 : List TransactionRecord := (List.range 2).map wRecord

/-- A concrete non-empty frame with two distinct counterparties. -/
def wFrame2 : Frame := { rows := wRows2, stockCol := true, extra := [] }

/-- A concrete one-row frame. -/
def wFrame1 : Frame := { rows := [wRecord 0], stockCol := true, extra := [] }

/-- A concrete non-empty frame whose `stock_item` column is absent. -/
def noStockFrame : Frame := { rows := wRows3, stockCol := false, extra := [] }

/-- The RFM rows of a segmentation outcome (empty on failure). -/
def segRfm : Except AnalyticsError SegmentationResult → List RfmRecord
  | .ok r => r.rfm
  | .error _ => []

/-- A concrete k-means stand-in assigning every row the label 0. -/
def clusterZero : List (Real × Real × Real) → Nat → List Nat :=
  fun rows _ => List.replicate rows.length 0

lemma sum_map_add {κ : Type} (l : List κ) (f g : κ → Rat) :
    (l.map fun k => f k + g k).sum = (l.map f).sum + (l.map g).sum := by
  induction l with
  | nil => simp
  | cons a t ih => simp only [List.map_cons, List.sum_cons, ih]; ring

lemma sum_ite_eq_of_mem {κ : Type} [DecidableEq κ] (x : κ) (a : Rat)
    (keys : List κ) (hmem : x ∈ keys) (hnd : keys.Nodup) :
    (keys.map fun k => if x = k then a else 0).sum = a := by
  induction keys with
  | nil => cases hmem
  | cons k ks ih =>
    rcases List.mem_cons.mp hmem with h | h
    · subst h
      have hz : (ks.map fun k => if x = k then a else 0).sum = 0 := by
        apply List.sum_eq_zero
        intro y hy
        rcases List.mem_map.mp hy with ⟨k', hk', hk'e⟩
        have hne : x ≠ k' := by
          intro he; exact (List.nodup_cons.mp hnd).1 (he ▸ hk')
        simpa [hne] using hk'e.symm
      simp [hz]
    · have hne : x ≠ k := by
        intro he; exact (List.nodup_cons.mp hnd).1 (he ▸ h)
      simp [hne, ih h (List.nodup_cons.mp hnd).2]

lemma fiberSum_total {κ : Type} [DecidableEq κ] (key : TransactionRecord → κ)
    (keys : List κ) (rows : List TransactionRecord) (hnd : keys.Nodup)
    (hcov : ∀ r ∈ rows, key r ∈ keys) :
    (keys.map fun k =>
        sumAmounts (rows.filter fun r => decide (key r = k))).sum
      = sumAmounts rows := by
  induction rows with
  | nil => simp [sumAmounts]
  | cons r rs ih =>
    have hstep : ∀ k : κ,
        sumAmounts ((r :: rs).filter fun x => decide (key x = k))
          = (if key r = k then r.amount else 0)
            + sumAmounts (rs.filter fun x => decide (key x = k)) := by
      intro k
      by_cases h : key r = k <;> simp [sumAmounts, List.filter_cons, h]
    have hmapeq : (keys.map fun k =>
        sumAmounts ((r :: rs).filter fun x => decide (key x = k)))
          = keys.map fun k => (if key r = k then r.amount else 0)
              + sumAmounts (rs.filter fun x => decide (key x = k)) :=
      List.map_congr_left fun k _ => hstep k
    rw [hmapeq, sum_map_add, sum_ite_eq_of_mem (key r) r.amount keys
        (hcov r (List.mem_cons_self r rs)) hnd,
      ih fun x hx => hcov x (List.mem_cons_of_mem r hx)]
    simp [sumAmounts]

/-- Sum of the per-bucket totals of a grouping equals the total amount. -/
lemma groupSum_conserves {κ : Type} [DecidableEq κ]
    (key : TransactionRecord → κ) (rows : List TransactionRecord) :
    ((groupSum key rows).map Prod.snd).sum = sumAmounts rows := by
  unfold groupSum
  rw [List.map_map]
  exact fiberSum_total key ((rows.map key).dedup) rows (List.nodup_dedup _)
    fun r hr => List.mem_dedup.mpr (List.mem_map_of_mem key hr)

lemma dailyAgg_nil : dailyAgg [] = [] := rfl

lemma rows_ne_nil_of_distinctDates {rows : List TransactionRecord}
    (h : 1 ≤ distinctDates rows) : rows ≠ [] := by
  intro he
  subst he
  simp [distinctDates, dailyAgg_nil] at h

lemma getD_map_lt {α β : Type} (g : α → β) (l : List α) (i : Nat)
    (hi : i < l.length) (d : α) (e : β) :
    (l.map g).getD i e = g (l.getD i d) := by
  induction l generalizing i with
  | nil => simp at hi
  | cons x xs ih =>
    cases i with
    | zero => simp [List.getD_cons_zero]
    | succ n =>
      simp only [List.map_cons, List.getD_cons_succ]
      exact ih n (by simpa using Nat.lt_of_succ_lt_succ hi)

/-- The explicit success form of `sales_forecasting` once both guards pass. -/
lemma sales_forecasting_eq_ok (predict : Int × Int × Int × Int → Rat)
    (f : Frame) (forecast_days : Nat) (hd : "date" ∈ f.cols)
    (h7 : 7 ≤ distinctDates f.rows) :
    sales_forecasting predict f forecast_days
      = .ok (forecastPayload predict f.rows forecast_days) := by
  have hne : f.rows ≠ [] :=
    rows_ne_nil_of_distinctDates (le_trans (by norm_num) h7)
  have hguard : ¬(f.rows = [] ∨ "date" ∉ f.cols) := by
    push_neg
    exact ⟨hne, hd⟩
  have hlen : ¬(dailyAgg f.rows).length < 7 := by
    have : distinctDates f.rows = (dailyAgg f.rows).length := rfl
    omega
  simp only [sales_forecasting, if_neg hguard, if_neg hlen]

lemma length_forecastDates (rows : List TransactionRecord) (d : Nat) :
    (forecastDates rows d).length = d := by
  simp [forecastDates]

lemma length_forecastValues (predict : Int × Int × Int × Int → Rat)
    (rows : List TransactionRecord) (d : Nat) :
    (forecastValues predict rows d).length = d := by
  simp [forecastValues, length_forecastDates]

lemma getD_forecastDates (rows : List TransactionRecord) (d i : Nat)
    (hi : i < d) :
    (forecastDates rows d).getD i 0 = lastDate rows + 1 + (i : Int) := by
  unfold forecastDates
  rw [getD_map_lt _ _ i (by simpa using hi) 0 0]
  have hr : (List.range' 1 d).getD i 0 = 1 + i := by
    have hlt : i < (List.range' 1 d).length := by simpa using hi
    rw [List.getD_eq_getElem _ _ hlt, List.getElem_range'_1]
  rw [hr]
  push_cast
  ring

/-- C1: for every input series with at least 7 distinct calendar dates and
every positive horizon, the forecast succeeds and each forecast index `i`
satisfies `lower[i] = point[i] - 1.96 * s` and `upper[i] = point[i] + 1.96 * s`
where `s` is the standard deviation of the training residuals (actual minus
predicted on the historical data); `s ≥ 0`, hence
`lower[i] ≤ point[i] ≤ upper[i]`, and the band width is the same constant for
every forecast day. -/
theorem forecast_confidence_band (predict : Int × Int × Int × Int → Rat)
    (f : Frame) (d : Nat) (hd : "date" ∈ f.cols)
    (h7 : 7 ≤ distinctDates f.rows) (hpos : 0 < d) :
    ∃ r : ForecastResult, sales_forecasting predict f d = .ok r ∧
      0 ≤ stdResidual predict f.rows ∧
      (∀ i < d,
        r.confidence_lower.getD i 0
            = (r.forecast_values.getD i 0 : Rat)
              - 1.96 * stdResidual predict f.rows ∧
        r.confidence_upper.getD i 0
            = (r.forecast_values.getD i 0 : Rat)
              + 1.96 * stdResidual predict f.rows ∧
        r.confidence_lower.getD i 0 ≤ ((r.forecast_values.getD i 0 : Rat) : Real) ∧
        ((r.forecast_values.getD i 0 : Rat) : Real) ≤ r.confidence_upper.getD i 0) ∧
      ∀ i < d, ∀ j < d,
        r.confidence_upper.getD i 0 - r.confidence_lower.getD i 0
          = r.confidence_upper.getD j 0 - r.confidence_lower.getD j 0 := by
  refine ⟨_, sales_forecasting_eq_ok predict f d hd h7, ?_, ?_, ?_⟩
  · exact Real.sqrt_nonneg _
  · simp only [forecastPayload]
    intro i hi
    have hil : i < (forecastValues predict f.rows d).length := by
      rw [length_forecastValues]
      exact hi
    have hlow := getD_map_lt
      (fun v : Rat => (v : Real) - 1.96 * stdResidual predict f.rows)
      (forecastValues predict f.rows d) i hil 0 0
    have hupp := getD_map_lt
      (fun v : Rat => (v : Real) + 1.96 * stdResidual predict f.rows)
      (forecastValues predict f.rows d) i hil 0 0
    have hs : (0 : Real) ≤ 1.96 * stdResidual predict f.rows := by
      have hsq := Real.sqrt_nonneg (popVar (trainResiduals predict f.rows))
      have h196 : (0 : Real) ≤ 1.96 := by norm_num
      exact mul_nonneg h196 hsq
    refine ⟨hlow, hupp, ?_, ?_⟩
    · rw [hlow]
      linarith
    · rw [hupp]
      linarith
  · simp only [forecastPayload]
    intro i hi j hj
    have hil : i < (forecastValues predict f.rows d).length := by
      rw [length_forecastValues]; exact hi
    have hjl : j < (forecastValues predict f.rows d).length := by
      rw [length_forecastValues]; exact hj
    rw [getD_map_lt (fun v : Rat => (v : Real) - 1.96 * stdResidual predict f.rows)
        (forecastValues predict f.rows d) i hil 0 0,
      getD_map_lt (fun v : Rat => (v : Real) + 1.96 * stdResidual predict f.rows)
        (forecastValues predict f.rows d) i hil 0 0,
      getD_map_lt (fun v : Rat => (v : Real) - 1.96 * stdResidual predict f.rows)
        (forecastValues predict f.rows d) j hjl 0 0,
      getD_map_lt (fun v : Rat => (v : Real) + 1.96 * stdResidual predict f.rows)
        (forecastValues predict f.rows d) j hjl 0 0]
    ring

/-- C2: for every input batch with at least 7 distinct calendar dates and
every horizon `h > 0`, the forecast succeeds and its result contains exactly
`h` forecast dates that are strictly increasing consecutive calendar days
(no gaps or duplicates), the first being one day after the latest date of the
historical daily aggregate series. -/
theorem forecast_dates_contiguous (predict : Int × Int × Int × Int → Rat)
    (f : Frame) (d : Nat) (hd : "date" ∈ f.cols)
    (h7 : 7 ≤ distinctDates f.rows) (hpos : 0 < d) :
    ∃ r : ForecastResult, sales_forecasting predict f d = .ok r ∧
      r.historical_data = dailyAgg f.rows ∧
      r.forecast_dates.length = d ∧
      r.forecast_dates.head? = some (lastDate f.rows + 1) ∧
      List.Chain' (fun a b => b = a + 1) r.forecast_dates ∧
      r.forecast_dates.Pairwise (· < ·) := by
  refine ⟨_, sales_forecasting_eq_ok predict f d hd h7, rfl, ?_, ?_, ?_, ?_⟩
  · exact length_forecastDates f.rows d
  · simp only [forecastPayload]
    have h0 : (forecastDates f.rows d).getD 0 0 = lastDate f.rows + 1 := by
      have := getD_forecastDates f.rows d 0 hpos
      simpa using this
    have hlen : 0 < (forecastDates f.rows d).length := by
      rw [length_forecastDates]; exact hpos
    rw [List.head?_eq_getElem?, List.getElem?_eq_getElem hlen]
    rw [List.getD_eq_getElem _ _ hlen] at h0
    rw [h0]
  · simp only [forecastPayload]
    rw [List.chain'_iff_get]
    intro i hlt
    have hlen : (forecastDates f.rows d).length = d := length_forecastDates f.rows d
    have hi : i < d := by omega
    have hi1 : i + 1 < d := by omega
    have gi := getD_forecastDates f.rows d i hi
    have gi1 := getD_forecastDates f.rows d (i + 1) hi1
    rw [List.getD_eq_getElem _ _ (by omega)] at gi gi1
    rw [List.get_eq_getElem, List.get_eq_getElem]
    simp only [gi, gi1]
    push_cast
    ring
  · simp only [forecastPayload]
    rw [List.pairwise_iff_getElem]
    intro i j hi hj hij
    have hlen : (forecastDates f.rows d).length = d := length_forecastDates f.rows d
    have gi := getD_forecastDates f.rows d i (by omega)
    have gj := getD_forecastDates f.rows d j (by omega)
    rw [List.getD_eq_getElem _ _ (by omega)] at gi gj
    rw [gi, gj]
    have : (i : Int) < (j : Int) := by exact_mod_cast hij
    omega

/-- Witness for C1 at the concrete frame `wFrame7`, horizon 3, and the
constant-zero prediction function. -/
theorem forecast_confidence_band_witness :
    "date" ∈ wFrame7.cols ∧ 7 ≤ distinctDates wFrame7.rows ∧ 0 < 3 ∧
    (∃ r : ForecastResult,
      sales_forecasting (fun _ => 0) wFrame7 3 = .ok r ∧
      0 ≤ stdResidual (fun _ => 0) wFrame7.rows ∧
      (∀ i < 3,
        r.confidence_lower.getD i 0
            = (r.forecast_values.getD i 0 : Rat)
              - 1.96 * stdResidual (fun _ => 0) wFrame7.rows ∧
        r.confidence_upper.getD i 0
            = (r.forecast_values.getD i 0 : Rat)
              + 1.96 * stdResidual (fun _ => 0) wFrame7.rows ∧
        r.confidence_lower.getD i 0 ≤ ((r.forecast_values.getD i 0 : Rat) : Real) ∧
        ((r.forecast_values.getD i 0 : Rat) : Real) ≤ r.confidence_upper.getD i 0) ∧
      ∀ i < 3, ∀ j < 3,
        r.confidence_upper.getD i 0 - r.confidence_lower.getD i 0
          = r.confidence_upper.getD j 0 - r.confidence_lower.getD j 0) :=
  ⟨by decide, by decide, by decide,
    forecast_confidence_band (fun _ => 0) wFrame7 3 (by decide) (by decide)
      (by decide)⟩

/-- Witness for C2 at the concrete frame `wFrame7` and horizon 3. -/
theorem forecast_dates_contiguous_witness :
    "date" ∈ wFrame7.cols ∧ 7 ≤ distinctDates wFrame7.rows ∧ 0 < 3 ∧
    (∃ r : ForecastResult,
      sales_forecasting (fun _ => 0) wFrame7 3 = .ok r ∧
      r.historical_data = dailyAgg wFrame7.rows ∧
      r.forecast_dates.length = 3 ∧
      r.forecast_dates.head? = some (lastDate wFrame7.rows + 1) ∧
      List.Chain' (fun a b => b = a + 1) r.forecast_dates ∧
      r.forecast_dates.Pairwise (· < ·)) :=
  ⟨by decide, by decide, by decide,
    forecast_dates_contiguous (fun _ => 0) wFrame7 3 (by decide) (by decide)
      (by decide)⟩

/-- C3 counterexample: the empty batch spans 0 (< 7) distinct calendar dates,
yet `sales_forecasting` returns the generic insufficient-data failure (the
dict message "Insufficient data for forecasting"), not the
`InsufficientHistory` failure ("Need at least 7 days of data for
forecasting"). -/
theorem forecast_insufficient_history_cex :
    distinctDates emptyFrame.rows < 7 ∧
    sales_forecasting (fun _ => 0) emptyFrame 5
      = .error .insufficientData ∧
    sales_forecasting (fun _ => 0) emptyFrame 5
      ≠ .error .insufficientHistory := by
  refine ⟨by decide, ?_, ?_⟩
  · simp [sales_forecasting, emptyFrame]
  · simp [sales_forecasting, emptyFrame]

/-- C3 (amended): every non-empty batch (with its `date` column) spanning
fewer than 7 distinct calendar dates yields the `InsufficientHistory`
failure; the empty batch instead yields the distinct generic
insufficient-data failure; with at least 7 distinct dates neither failure is
produced and the operation succeeds.  (No exception is ever raised: the
embedding is total.) -/
theorem forecast_insufficient_history (predict : Int × Int × Int × Int → Rat)
    (f : Frame) (d : Nat) :
    (f.rows ≠ [] → "date" ∈ f.cols → distinctDates f.rows < 7 →
      sales_forecasting predict f d = .error .insufficientHistory) ∧
    (f.rows = [] →
      sales_forecasting predict f d = .error .insufficientData) ∧
    (7 ≤ distinctDates f.rows → "date" ∈ f.cols →
      ∃ r : ForecastResult, sales_forecasting predict f d = .ok r) := by
  refine ⟨?_, ?_, ?_⟩
  · intro hne hd h7
    have hguard : ¬(f.rows = [] ∨ "date" ∉ f.cols) := by
      push_neg
      exact ⟨hne, hd⟩
    have hlen : (dailyAgg f.rows).length < 7 := h7
    simp [sales_forecasting, hguard, hlen]
  · intro he
    simp [sales_forecasting, he]
  · intro h7 hd
    exact ⟨_, sales_forecasting_eq_ok predict f d hd h7⟩

/-- Witness for the amended C3: a non-empty batch with 3 (< 7) distinct dates
yields `InsufficientHistory`. -/
theorem forecast_insufficient_history_witness :
    wFrame3.rows ≠ [] ∧ "date" ∈ wFrame3.cols ∧
    distinctDates wFrame3.rows < 7 ∧
    sales_forecasting (fun _ => 0) wFrame3 5 = .error .insufficientHistory :=
  ⟨by decide, by decide, by decide,
    (forecast_insufficient_history (fun _ => 0) wFrame3 5).1 (by decide)
      (by decide) (by decide)⟩

/-- C4 counterexample: the empty batch contains 0 (< 3) distinct
counterparties, yet `customer_segmentation` returns the generic
insufficient-customer-data failure ("Insufficient customer data"), not the
`InsufficientCustomers` failure ("Need at least 3 customers for
segmentation"). -/
theorem segmentation_insufficient_customers_cex :
    distinctParties emptyFrame.rows < 3 ∧
    customer_segmentation (fun _ _ => []) emptyFrame
      = .error .insufficientCustomerData ∧
    customer_segmentation (fun _ _ => []) emptyFrame
      ≠ .error .insufficientCustomers := by
  refine ⟨by decide, ?_, ?_⟩
  · simp [customer_segmentation, emptyFrame]
  · simp [customer_segmentation, emptyFrame]

/-- C4 (amended): every non-empty batch (with its `party_name` column)
containing fewer than 3 distinct counterparties yields the
`InsufficientCustomers` failure; the empty batch instead yields the distinct
generic insufficient-customer-data failure; with at least 3 distinct
counterparties neither failure is produced and the operation succeeds.
(No exception is ever raised: the embedding is total.) -/
theorem segmentation_insufficient_customers
    (cluster : List (Real × Real × Real) → Nat → List Nat) (f : Frame) :
    (f.rows ≠ [] → "party_name" ∈ f.cols → distinctParties f.rows < 3 →
      customer_segmentation cluster f = .error .insufficientCustomers) ∧
    (f.rows = [] →
      customer_segmentation cluster f = .error .insufficientCustomerData) ∧
    (3 ≤ distinctParties f.rows → "party_name" ∈ f.cols →
      ∃ res : SegmentationResult,
        customer_segmentation cluster f = .ok res) := by
  have hbase : (rfmBase f.rows).length = distinctParties f.rows := by
    simp [rfmBase, distinctParties]
  refine ⟨?_, ?_, ?_⟩
  · intro hne hp h3
    have hguard : ¬(f.rows = [] ∨ "party_name" ∉ f.cols) := by
      push_neg
      exact ⟨hne, hp⟩
    have hlen : (rfmBase f.rows).length < 3 := by omega
    simp [customer_segmentation, hguard, hlen]
  · intro he
    simp [customer_segmentation, he]
  · intro h3 hp
    have hne : f.rows ≠ [] := by
      intro he
      rw [he] at h3
      simp [distinctParties, partiesOf] at h3
    have hguard : ¬(f.rows = [] ∨ "party_name" ∉ f.cols) := by
      push_neg
      exact ⟨hne, hp⟩
    have hlen : ¬(rfmBase f.rows).length < 3 := by omega
    refine ⟨segmentationPayload cluster f.rows, ?_⟩
    simp [customer_segmentation, hguard, hlen]

/-- Witness for the amended C4: a non-empty batch with 2 (< 3) distinct
counterparties yields `InsufficientCustomers`. -/
theorem segmentation_insufficient_customers_witness :
    wFrame2.rows ≠ [] ∧ "party_name" ∈ wFrame2.cols ∧
    distinctParties wFrame2.rows < 3 ∧
    customer_segmentation (fun _ _ => []) wFrame2
      = .error .insufficientCustomers :=
  ⟨by decide, by decide, by decide,
    (segmentation_insufficient_customers (fun _ _ => []) wFrame2).1
      (by decide) (by decide) (by decide)⟩

/-- C6: for every non-empty input batch, the seasonal analysis succeeds and
the sum of the per-month bucket totals, the sum of the per-weekday bucket
totals, and the sum of the per-quarter bucket totals each equal the total
amount summed over all input records (exactly, in the rational embedding). -/
theorem seasonal_mass_conservation (f : Frame) (hne : f.rows ≠ []) :
    ∃ res : SeasonalResult, (seasonal_pattern_analysis f).1 = .ok res ∧
      (res.monthly_patterns.map Prod.snd).sum = sumAmounts f.rows ∧
      (res.weekly_patterns.map Prod.snd).sum = sumAmounts f.rows ∧
      (res.quarterly_patterns.map Prod.snd).sum = sumAmounts f.rows := by
  refine ⟨seasonalPayload f.rows, ?_, ?_, ?_, ?_⟩
  · simp [seasonal_pattern_analysis, hne]
  · simp only [seasonalPayload]
    exact groupSum_conserves _ _
  · simp only [seasonalPayload]
    exact groupSum_conserves _ _
  · simp only [seasonalPayload]
    exact groupSum_conserves _ _

/-- Witness for C6 at the concrete one-row frame. -/
theorem seasonal_mass_conservation_witness :
    wFrame1.rows ≠ [] ∧
    (∃ res : SeasonalResult,
      (seasonal_pattern_analysis wFrame1).1 = .ok res ∧
      (res.monthly_patterns.map Prod.snd).sum = sumAmounts wFrame1.rows ∧
      (res.weekly_patterns.map Prod.snd).sum = sumAmounts wFrame1.rows ∧
      (res.quarterly_patterns.map Prod.snd).sum = sumAmounts wFrame1.rows) :=
  ⟨by decide, seasonal_mass_conservation wFrame1 (by decide)⟩

/-- C7: each KPI key is present in the KPI map if and only if its source
snapshot is non-empty: the three sales-derived keys appear exactly when the
sales snapshot is non-empty, the three inventory-derived keys exactly when
the inventory snapshot is non-empty, and the two receivables-derived keys
exactly when the outstanding snapshot is non-empty. -/
theorem kpi_keys_present_iff (sales : List TransactionRecord)
    (inventory : List InventoryRecord)
    (outstanding : List OutstandingRecord) :
    ("total_sales" ∈ (calculate_kpis sales inventory outstanding).map Prod.fst
      ↔ sales ≠ []) ∧
    ("avg_transaction_value"
        ∈ (calculate_kpis sales inventory outstanding).map Prod.fst
      ↔ sales ≠ []) ∧
    ("sales_count" ∈ (calculate_kpis sales inventory outstanding).map Prod.fst
      ↔ sales ≠ []) ∧
    ("total_inventory_value"
        ∈ (calculate_kpis sales inventory outstanding).map Prod.fst
      ↔ inventory ≠ []) ∧
    ("inventory_items"
        ∈ (calculate_kpis sales inventory outstanding).map Prod.fst
      ↔ inventory ≠ []) ∧
    ("low_stock_items"
        ∈ (calculate_kpis sales inventory outstanding).map Prod.fst
      ↔ inventory ≠ []) ∧
    ("total_receivables"
        ∈ (calculate_kpis sales inventory outstanding).map Prod.fst
      ↔ outstanding ≠ []) ∧
    ("overdue_customers"
        ∈ (calculate_kpis sales inventory outstanding).map Prod.fst
      ↔ outstanding ≠ []) := by
  by_cases hs : sales = [] <;> by_cases hi : inventory = [] <;>
    by_cases ho : outstanding = [] <;>
      simp [calculate_kpis, hs, hi, ho]

/-- C8 counterexample: on a non-empty batch lacking the entity/product
identifier column, `product_trend_analysis` returns the dict with the
`error` key set (the same failure channel every hard error uses, which the
caller renders with `st.error`), not a success-tagged "unavailable" soft
result. -/
theorem trend_unavailable_cex :
    noStockFrame.rows ≠ [] ∧ "stock_item" ∉ noStockFrame.cols ∧
    (product_trend_analysis noStockFrame).1 = .error .stockItemUnavailable ∧
    ((product_trend_analysis noStockFrame).1).isOk = false := by
  have h1 : ¬(noStockFrame.rows = []) := by decide
  have h2 : "stock_item" ∉ noStockFrame.cols := by decide
  refine ⟨h1, h2, ?_, ?_⟩
  · simp [product_trend_analysis, h1, h2]
  · simp [product_trend_analysis, h1, h2, Except.isOk, Except.toBool]

/-- C8 (amended): for every non-empty batch lacking the `stock_item` column,
trend classification returns the failure whose message is the dedicated
"Stock item information not available in sales data" string — delivered
through the same `error` channel as the hard failures and distinguishable
from every other failure kind only by that message — and leaves the frame
unchanged. -/
theorem trend_missing_stock_message (f : Frame) (hne : f.rows ≠ [])
    (hns : "stock_item" ∉ f.cols) :
    (product_trend_analysis f).1 = .error .stockItemUnavailable ∧
    (product_trend_analysis f).2 = f ∧
    ∀ e : AnalyticsError, e ≠ .stockItemUnavailable →
      e.message ≠ AnalyticsError.message .stockItemUnavailable := by
  refine ⟨?_, ?_, ?_⟩
  · simp [product_trend_analysis, hne, hns]
  · simp [product_trend_analysis, hne, hns]
  · intro e he
    cases e <;> simp_all [AnalyticsError.message]

/-- Witness for the amended C8 at the concrete no-stock-column frame. -/
theorem trend_missing_stock_message_witness :
    noStockFrame.rows ≠ [] ∧ "stock_item" ∉ noStockFrame.cols ∧
    ((product_trend_analysis noStockFrame).1
        = .error .stockItemUnavailable ∧
      (product_trend_analysis noStockFrame).2 = noStockFrame ∧
      ∀ e : AnalyticsError, e ≠ .stockItemUnavailable →
        e.message ≠ AnalyticsError.message .stockItemUnavailable) :=
  ⟨by decide, by decide,
    trend_missing_stock_message noStockFrame (by decide) (by decide)⟩

lemma assignCol_rows (f : Frame) (c : String) :
    (f.assignCol c).rows = f.rows := by
  unfold Frame.assignCol
  split <;> rfl

lemma assignCol_stockCol (f : Frame) (c : String) :
    (f.assignCol c).stockCol = f.stockCol := by
  unfold Frame.assignCol
  split <;> rfl

lemma assignCols_rows (f : Frame) (cs : List String) :
    (f.assignCols cs).rows = f.rows := by
  induction cs generalizing f with
  | nil => rfl
  | cons c cs ih => rw [Frame.assignCols, ih, assignCol_rows]

/-- C9 counterexample: `seasonal_pattern_analysis` modifies the
caller-supplied frame — after the call the frame has gained the derived
`month`, `quarter`, `day_of_week` and `week_of_year` columns, so it is not
identical to the frame before the call. -/
theorem engine_no_mutation_cex :
    (seasonal_pattern_analysis wFrame1).2 ≠ wFrame1 ∧
    (seasonal_pattern_analysis wFrame1).2.extra
      = ["month", "quarter", "day_of_week", "week_of_year"] := by
  constructor
  · intro he
    have : (seasonal_pattern_analysis wFrame1).2.extra = wFrame1.extra := by
      rw [he]
    revert this
    decide
  · decide

/-- C9 (amended): the forecasting, segmentation and KPI embeddings are pure
functions of their inputs, but trend classification and seasonal analysis
mutate the caller's frame in place: on a non-empty batch, seasonal analysis
appends the derived `month`, `quarter`, `day_of_week`, `week_of_year`
columns, and trend classification (when the `stock_item` column is present)
appends the derived `month` column; the rows themselves (count, dates,
amounts) are unchanged, and the error paths leave the frame untouched. -/
theorem engine_mutation_effects (f : Frame) :
    (f.rows ≠ [] →
      (seasonal_pattern_analysis f).2
          = f.assignCols ["month", "quarter", "day_of_week", "week_of_year"] ∧
      (seasonal_pattern_analysis f).2.rows = f.rows) ∧
    (f.rows = [] → (seasonal_pattern_analysis f).2 = f) ∧
    (f.rows ≠ [] → "stock_item" ∈ f.cols →
      (product_trend_analysis f).2 = f.assignCol "month" ∧
      (product_trend_analysis f).2.rows = f.rows) ∧
    (f.rows = [] ∨ "stock_item" ∉ f.cols →
      (product_trend_analysis f).2 = f) := by
  refine ⟨?_, ?_, ?_, ?_⟩
  · intro hne
    constructor
    · simp [seasonal_pattern_analysis, hne]
    · simp [seasonal_pattern_analysis, hne, assignCols_rows]
  · intro he
    simp [seasonal_pattern_analysis, he]
  · intro hne hs
    constructor
    · simp [product_trend_analysis, hne, hs]
    · simp [product_trend_analysis, hne, hs, assignCol_rows]
  · intro h
    rcases h with he | hns
    · simp [product_trend_analysis, he]
    · by_cases he : f.rows = []
      · simp [product_trend_analysis, he]
      · simp [product_trend_analysis, he, hns]

/-- Witness for the amended C9 at the concrete one-row frame. -/
theorem engine_mutation_effects_witness :
    wFrame1.rows ≠ [] ∧ "stock_item" ∈ wFrame1.cols ∧
    ((seasonal_pattern_analysis wFrame1).2
        = wFrame1.assignCols ["month", "quarter", "day_of_week", "week_of_year"] ∧
      (seasonal_pattern_analysis wFrame1).2.rows = wFrame1.rows) ∧
    ((product_trend_analysis wFrame1).2 = wFrame1.assignCol "month" ∧
      (product_trend_analysis wFrame1).2.rows = wFrame1.rows) :=
  ⟨by decide, by decide,
    (engine_mutation_effects wFrame1).1 (by decide),
    (engine_mutation_effects wFrame1).2.2.1 (by decide) (by decide)⟩

lemma trendProducts_products (rows : List TransactionRecord) :
    ((trendProducts rows).map fun p => p.product) = productsOf rows := by
  unfold trendProducts
  rw [List.map_map]
  have hcong : ∀ it ∈ productsOf rows,
      ((fun p => p.product) ∘ fun it =>
        let p := productBase rows it
        let cat := categorize_product (velocityThreshold rows)
          (frequencyThreshold rows) p.sales_velocity (p.sales_frequency : Rat)
        { p with category := cat }) it = id it := by
    intro it _
    simp [productBase]
  rw [List.map_congr_left hcong, List.map_id]

/-- C5: in every successful trend-classification result there is exactly one
record per distinct entity, and each record's movement category is exactly
one of the four names, assigned by the quantile rule: velocity and frequency
both at or above their 70th-percentile thresholds gives `Fast Mover`,
velocity only gives `High Value`, frequency only gives `Frequent Seller`,
and otherwise `Slow Mover` — mutually exclusive and exhaustive. -/
theorem trend_partition (f : Frame) (hne : f.rows ≠ [])
    (hs : "stock_item" ∈ f.cols) :
    ∃ res : TrendResult, (product_trend_analysis f).1 = .ok res ∧
      (res.product_analysis.map fun p => p.product) = productsOf f.rows ∧
      (res.product_analysis.map fun p => p.product).Nodup ∧
      ∀ p ∈ res.product_analysis,
        (p.category = "Fast Mover" ∨ p.category = "High Value" ∨
          p.category = "Frequent Seller" ∨ p.category = "Slow Mover") ∧
        (p.category = "Fast Mover"
          ↔ velocityThreshold f.rows ≤ p.sales_velocity ∧
            frequencyThreshold f.rows ≤ (p.sales_frequency : Rat)) ∧
        (p.category = "High Value"
          ↔ velocityThreshold f.rows ≤ p.sales_velocity ∧
            ¬frequencyThreshold f.rows ≤ (p.sales_frequency : Rat)) ∧
        (p.category = "Frequent Seller"
          ↔ ¬velocityThreshold f.rows ≤ p.sales_velocity ∧
            frequencyThreshold f.rows ≤ (p.sales_frequency : Rat)) ∧
        (p.category = "Slow Mover"
          ↔ ¬velocityThreshold f.rows ≤ p.sales_velocity ∧
            ¬frequencyThreshold f.rows ≤ (p.sales_frequency : Rat)) := by
  refine ⟨trendPayload f.rows, by simp [product_trend_analysis, hne, hs],
    ?_, ?_, ?_⟩
  · simp only [trendPayload]
    exact trendProducts_products f.rows
  · simp only [trendPayload]
    rw [trendProducts_products f.rows]
    exact List.nodup_dedup _
  · simp only [trendPayload]
    intro p hp
    unfold trendProducts at hp
    obtain ⟨it, hit, hb⟩ := List.mem_map.mp hp
    subst hb
    by_cases hv : velocityThreshold f.rows
        ≤ (productBase f.rows it).sales_velocity <;>
      by_cases hf : frequencyThreshold f.rows
          ≤ ((productBase f.rows it).sales_frequency : Rat) <;>
        simp [categorize_product, hv, hf]

/-- Witness for C5 at the concrete three-row frame (three distinct
products). -/
theorem trend_partition_witness :
    wFrame3.rows ≠ [] ∧ "stock_item" ∈ wFrame3.cols ∧
    (∃ res : TrendResult, (product_trend_analysis wFrame3).1 = .ok res ∧
      (res.product_analysis.map fun p => p.product) = productsOf wFrame3.rows ∧
      (res.product_analysis.map fun p => p.product).Nodup ∧
      ∀ p ∈ res.product_analysis,
        (p.category = "Fast Mover" ∨ p.category = "High Value" ∨
          p.category = "Frequent Seller" ∨ p.category = "Slow Mover") ∧
        (p.category = "Fast Mover"
          ↔ velocityThreshold wFrame3.rows ≤ p.sales_velocity ∧
            frequencyThreshold wFrame3.rows ≤ (p.sales_frequency : Rat)) ∧
        (p.category = "High Value"
          ↔ velocityThreshold wFrame3.rows ≤ p.sales_velocity ∧
            ¬frequencyThreshold wFrame3.rows ≤ (p.sales_frequency : Rat)) ∧
        (p.category = "Frequent Seller"
          ↔ ¬velocityThreshold wFrame3.rows ≤ p.sales_velocity ∧
            frequencyThreshold wFrame3.rows ≤ (p.sales_frequency : Rat)) ∧
        (p.category = "Slow Mover"
          ↔ ¬velocityThreshold wFrame3.rows ≤ p.sales_velocity ∧
            ¬frequencyThreshold wFrame3.rows ≤ (p.sales_frequency : Rat))) :=
  ⟨by decide, by decide, trend_partition wFrame3 (by decide) (by decide)⟩

/-- C10: in every successful segmentation result, every counterparty's
segment label is one of the four fixed names: the cluster count is
`min(4, distinct counterparty count)`, so — given that the clustering call
returns labels below the cluster count, as k-means does — every cluster id
lies in `{0, 1, 2, 3}` and the `Segment {x}` fallback branch of the label
map is unreachable. -/
theorem segmentation_label_names
    (cluster : List (Real × Real × Real) → Nat → List Nat) (f : Frame)
    (hcl : ∀ rows k, 0 < k → ∀ l ∈ cluster rows k, l < k) :
    (∀ rec ∈ segRfm (customer_segmentation cluster f),
      rec.segment_name = "Champions" ∨
      rec.segment_name = "Loyal Customers" ∨
      rec.segment_name = "Potential Loyalists" ∨
      rec.segment_name = "At Risk") ∧
    ∀ res : SegmentationResult,
      customer_segmentation cluster f = .ok res → res.n_clusters ≤ 4 := by
  constructor
  · intro rec hrec
    unfold customer_segmentation at hrec
    by_cases h1 : f.rows = [] ∨ "party_name" ∉ f.cols
    · rw [if_pos h1] at hrec
      simp [segRfm] at hrec
    · rw [if_neg h1] at hrec
      by_cases h2 : (rfmBase f.rows).length < 3
      · rw [if_pos h2] at hrec
        simp [segRfm] at hrec
      · rw [if_neg h2] at hrec
        simp only [segRfm, segmentationPayload] at hrec
        obtain ⟨bl, hbl, hb⟩ := List.mem_map.mp hrec
        have hmem := (List.of_mem_zip hbl).2
        have hkpos : 0 < min 4 (rfmBase f.rows).length := by omega
        have h4 : bl.2 < 4 :=
          lt_of_lt_of_le (hcl _ _ hkpos _ hmem) (min_le_left _ _)
        subst hb
        have hc : bl.2 = 0 ∨ bl.2 = 1 ∨ bl.2 = 2 ∨ bl.2 = 3 := by omega
        rcases hc with h | h | h | h <;> simp [h, segment_labels]
  · intro res hres
    unfold customer_segmentation at hres
    by_cases h1 : f.rows = [] ∨ "party_name" ∉ f.cols
    · rw [if_pos h1] at hres
      cases hres
    · rw [if_neg h1] at hres
      by_cases h2 : (rfmBase f.rows).length < 3
      · rw [if_pos h2] at hres
        cases hres
      · rw [if_neg h2] at hres
        cases hres
        simp [segmentationPayload]

/-- Witness for C10 with the concrete all-zero label assignment and the
concrete three-counterparty frame. -/
theorem segmentation_label_names_witness :
    (∀ rows k, 0 < k → ∀ l ∈ clusterZero rows k, l < k) ∧
    ((∀ rec ∈ segRfm (customer_segmentation clusterZero wFrame3),
      rec.segment_name = "Champions" ∨
      rec.segment_name = "Loyal Customers" ∨
      rec.segment_name = "Potential Loyalists" ∨
      rec.segment_name = "At Risk") ∧
    ∀ res : SegmentationResult,
      customer_segmentation clusterZero wFrame3 = .ok res →
        res.n_clusters ≤ 4) := by
  have hcl : ∀ rows k, 0 < k → ∀ l ∈ clusterZero rows k, l < k := by
    intro rows k hk l hl
    have : l = 0 := List.eq_of_mem_replicate hl
    omega
  exact ⟨hcl, segmentation_label_names clusterZero wFrame3 hcl⟩

end TallyInsights
